import Mathlib

/-!
Verification of the redline load-generator core against its
natural-language specification.  Each Rust component relevant to the
checked claims is shallowly embedded as executable Lean definitions:
machine integers become `Nat`/`Int` with explicit `% 2^w` where overflow
matters, hash maps become association lists, and the async runner is
modelled as an explicit event fold.
-/

namespace Redline

/-! ## Association-list model of `HashMap<u64, V>` -/

/-- Lookup in an association map (model of `HashMap::get`). -/
def mapLookup {α : Type _} (m : List (Nat × α)) (k : Nat) : Option α :=
  match m with
  | [] => none
  | (k₀, v₀) :: rest => if k₀ = k then some v₀ else mapLookup rest k

/-- Remove a key from an association map (model of `HashMap::remove`). -/
def mapErase {α : Type _} (m : List (Nat × α)) (k : Nat) : List (Nat × α) :=
  m.filter (fun kv => kv.1 ≠ k)

/-- Insert with replacement (model of `HashMap::insert`). -/
def mapInsert {α : Type _} (m : List (Nat × α)) (k : Nat) (v : α) : List (Nat × α) :=
  (k, v) :: mapErase m k

/-! ## Machine-integer helpers -/

/-- Modulus of `u32` arithmetic. -/
def u32Mod : Nat := 4294967296

/-- Modulus of `u64`/`usize` arithmetic. -/
def u64Mod : Nat := 18446744073709551616

/-- Largest `u32` value (`u32::MAX`). -/
def u32Max : Nat := 4294967295

/-- Two's-complement wrap of an integer into the `i32` range,
modelling Rust release-mode wrapping `i32` addition. -/
def wrap32 (x : Int) : Int := (x + 2147483648) % 4294967296 - 2147483648

/-! ## `core/src/stats.rs`: `ObservationsStats` and `merge` -/

/-- Final statistics record (`ObservationsStats` in `core/src/stats.rs`).
`count` is a `usize`, `median`/`avg`/`quantile95` are `i32`,
`min`/`max`/`stddev` are `u32`. -/
structure ObservationsStats where
  count : Nat
  median : Int
  min : Nat
  max : Nat
  avg : Int
  quantile95 : Int
  stddev : Nat
  deriving Repr, DecidableEq

/-- The all-zero record produced by `ObservationsStats::default()`. -/
def ObservationsStats.default : ObservationsStats :=
  ⟨0, 0, 0, 0, 0, 0, 0⟩

/-- One step of the fold inside `ObservationsStats::merge`: wrapping
machine addition for the summed fields, `min`/`max` for the extremal
fields when `average` is set. -/
def mergeStep (average : Bool) (acc : Nat × Int × Nat × Nat × Int × Int × Nat)
    (stat : ObservationsStats) : Nat × Int × Nat × Nat × Int × Int × Nat :=
  ( (acc.1 + stat.count) % u64Mod,
    wrap32 (acc.2.1 + stat.median),
    if average then Nat.min acc.2.2.1 stat.min else (acc.2.2.1 + stat.min) % u32Mod,
    if average then Nat.max acc.2.2.2.1 stat.max else (acc.2.2.2.1 + stat.max) % u32Mod,
    wrap32 (acc.2.2.2.2.1 + stat.avg),
    wrap32 (acc.2.2.2.2.2.1 + stat.quantile95),
    (acc.2.2.2.2.2.2 + stat.stddev) % u32Mod )

/-- `ObservationsStats::merge` from `core/src/stats.rs`: folds the list
with `mergeStep` and divides the summed fields by `total_count`
(the list length under latency semantics, `1` otherwise). -/
def ObservationsStats.merge (stats : List ObservationsStats) (average : Bool) :
    ObservationsStats :=
  let totalCount : Nat := if average then stats.length else 1
  if totalCount = 0 then ObservationsStats.default
  else
    let sum := stats.foldl (mergeStep average) (0, 0, u32Max, 0, 0, 0, 0)
    ⟨sum.1,
     Int.tdiv sum.2.1 totalCount,
     sum.2.2.1,
     sum.2.2.2.1,
     Int.tdiv sum.2.2.2.2.1 totalCount,
     Int.tdiv sum.2.2.2.2.2.1 totalCount,
     sum.2.2.2.2.2.2 / totalCount⟩

/-- `merge` of a two-element vector under latency semantics, viewed as a
binary operation on `ObservationsStats`. -/
def mergePair (a b : ObservationsStats) : ObservationsStats :=
  ObservationsStats.merge [a, b] true

/-! ## `bencher/src/confirmation.rs`: the confirmation tracker

`Instant` values are modelled as natural-number timestamps, and the
optional `oneshot::Sender<V>` as an optional sender tag; the value an
`observe` pushes through a oneshot channel is returned alongside the new
state so that channel effects stay visible. -/

/-- `PendingConfirmation<V>`: start instant plus optional oneshot sender
(the sender is represented by a tag). -/
structure PendingConfirmation where
  start : Nat
  tx : Option Nat
  deriving Repr, DecidableEq

/-- `Confirmations<V>`: pending map keyed by request id, plus the list of
observed latencies (microseconds). -/
structure Confirmations where
  pending : List (Nat × PendingConfirmation)
  observations : List Nat
  deriving Repr, DecidableEq

/-- The empty tracker produced by `Confirmations::new`. -/
def Confirmations.empty : Confirmations := ⟨[], []⟩

/-- `Confirmations::track`: store `{start: now, tx}` under `id`. -/
def Confirmations.track (c : Confirmations) (id : Nat) (now : Nat)
    (tx : Option Nat) : Confirmations :=
  { c with pending := mapInsert c.pending id ⟨now, tx⟩ }

/-- `Confirmations::observe` for values of type `V` (represented by `Nat`):
remove the pending entry if present, push the elapsed time, and fire the
oneshot sender when one was attached.  Returns the new state together with
the oneshot message sent, if any. -/
def Confirmations.observe (c : Confirmations) (id : Nat) (v : Nat)
    (now : Nat) : Confirmations × Option (Nat × Nat) :=
  match mapLookup c.pending id with
  | none => (c, none)
  | some p =>
      ({ pending := mapErase c.pending id,
         observations := c.observations ++ [now - p.start] },
       p.tx.map (fun t => (t, v)))

/-- Modelled from the spec: `Confirmations::remove` is called from the
completion task in `bencher/src/runner.rs` but its definition is not part
of the provided sources; per the spec, "`remove(id)` drops the entry
without observing (used on timeout)". -/
def Confirmations.remove (c : Confirmations) (id : Nat) : Confirmations :=
  { c with pending := mapErase c.pending id }

/-! ## `bencher/src/runner.rs`: per-iteration tracker events

`BenchRunner::step` plus the spawned completion task act on the three
trackers (delivery, signature, account).  The events each iteration
generates on each tracker are read off the source:

* delivery: always `track(id, None)`; the completion task calls
  `observe(id, ())` once the HTTP response resolves (every match arm
  falls through to `observe`).
* signature (when the builder produced a transaction and
  `subscribe-to-signatures` is set): `track(id, Some(tx))` under
  `enforce-total-sync`, else `track(id, None)`; `confirm_by_id` calls
  `observe` when the WS notification arrives.  The completion task's
  timeout branch is `let _ = timeout(CONFIRMATION_TIMEOUT, rx).await;`
  — it removes nothing.
* account (when the builder produced a transaction and
  `subscribe-to-accounts` is set): tracked likewise; `confirm_by_value`
  calls `observe` on arrival, and under `enforce-total-sync` the
  completion task calls `remove(id)` when the 3-second timeout expires.
-/

/-- An event applied to one tracker. -/
inductive TrackerEvent where
  | track (id : Nat) (tx : Option Nat)
  | observe (id : Nat) (v : Nat)
  | remove (id : Nat)
  deriving Repr, DecidableEq

/-- Apply a single tracker event (timestamps are irrelevant to the pending
map, so `now = 0` throughout). -/
def applyEvent (c : Confirmations) (e : TrackerEvent) : Confirmations :=
  match e with
  | .track id tx => c.track id 0 tx
  | .observe id v => (c.observe id v 0).1
  | .remove id => c.remove id

/-- Apply a list of tracker events in order. -/
def applyEvents (c : Confirmations) (es : List TrackerEvent) : Confirmations :=
  es.foldl applyEvent c

/-- Run-wide confirmation flags from the configuration
(`confirmations.subscribe-to-signatures`, `…-accounts`,
`…-enforce-total-sync`). -/
structure RunFlags where
  subSigs : Bool
  subAccts : Bool
  totalSync : Bool
  deriving Repr, DecidableEq

/-- What happened during a single iteration: whether the builder produced
a transaction (`hasSig`), whether the HTTP response resolved, and whether
the signature / account WS confirmations arrived before the respective
waits gave up. -/
structure StepInfo where
  hasSig : Bool
  deliveryResolved : Bool
  sigConfirmed : Bool
  acctConfirmed : Bool
  deriving Repr, DecidableEq

/-- Events iteration `id` generates on the delivery tracker. -/
def deliveryEvents (id : Nat) (s : StepInfo) : List TrackerEvent :=
  [.track id none] ++ (if s.deliveryResolved then [.observe id 0] else [])

/-- Events iteration `id` generates on the signature tracker.  On timeout
the completion task discards the result without touching the tracker, so
no `remove` event is ever produced. -/
def signatureEvents (f : RunFlags) (id : Nat) (s : StepInfo) : List TrackerEvent :=
  if s.hasSig && f.subSigs then
    [.track id (if f.totalSync then some id else none)] ++
      (if s.sigConfirmed then [.observe id 1] else [])
  else []

/-- Events iteration `id` generates on the account tracker.  Under
`enforce-total-sync` the completion task calls `remove(id)` when the
3-second timeout expires without a confirmation. -/
def accountEvents (f : RunFlags) (id : Nat) (s : StepInfo) : List TrackerEvent :=
  if s.hasSig && f.subAccts then
    [.track id (if f.totalSync then some id else none)] ++
      (if s.acctConfirmed then [.observe id id]
       else if f.totalSync then [.remove id] else [])
  else []

/-- The three tracker states of a run. -/
structure RunTrackers where
  delivery : Confirmations
  signature : Confirmations
  account : Confirmations
  deriving Repr, DecidableEq

/-- Apply one iteration's events to the three trackers. -/
def applyStep (f : RunFlags) (id : Nat) (s : StepInfo) (t : RunTrackers) :
    RunTrackers :=
  { delivery := applyEvents t.delivery (deliveryEvents id s),
    signature := applyEvents t.signature (signatureEvents f id s),
    account := applyEvents t.account (accountEvents f id s) }

/-- Fold a run from iteration index `i` onwards. -/
def runFrom (f : RunFlags) (i : Nat) (steps : List StepInfo) (t : RunTrackers) :
    RunTrackers :=
  match steps with
  | [] => t
  | s :: rest => runFrom f (i + 1) rest (applyStep f i s t)

/-- The tracker states after a complete run (`BenchRunner::run` iterates
`step(i)` for `i = 0 .. iterations-1`). -/
def runTrackers (f : RunFlags) (steps : List StepInfo) : RunTrackers :=
  runFrom f 0 steps ⟨Confirmations.empty, Confirmations.empty, Confirmations.empty⟩

/-! ## `bencher/src/rate.rs`: `RateManager::tick`

The arithmetic of one `tick` call as a pure function of the target
`rate`, the stored `count`, and the time elapsed in the current epoch
(microseconds).  `self.count += 1` wraps as a `u32`; the divisor
`(self.rate - self.count).max(1)` is release-mode wrapping `u32`
subtraction; `1000u64.saturating_sub(elapsed.as_millis() as u64)` is
exactly `Nat` truncated subtraction. -/

/-- Result of the arithmetic inside one `RateManager::tick` call:
the count after increment and possible epoch reset, the pacing divisor,
and the duration (ms) actually passed to `tokio::time::sleep` (zero when
no sleep happens). -/
structure TickResult where
  countAfter : Nat
  remaining : Nat
  sleepDur : Nat
  sleptMs : Nat
  didReset : Bool
  deriving Repr, DecidableEq

/-- `RateManager::tick` arithmetic from `bencher/src/rate.rs`.
`sleepDur` is the computed `sleep_dur` value and `sleptMs` the duration
actually slept after the `< 1ms` branch. -/
def rateTick (rate count elapsedUs : Nat) : TickResult :=
  let count1 := (count + 1) % u32Mod
  let elapsedMs := elapsedUs / 1000
  let didReset := decide (1000000 ≤ elapsedUs)
  let countUsed := if 1000000 ≤ elapsedUs then 0 else count1
  let remaining := Nat.max ((rate + u32Mod - countUsed % u32Mod) % u32Mod) 1
  let sleepDur := (1000 - elapsedMs) / remaining
  let slept :=
    if 1 ≤ sleepDur then sleepDur
    else if rate ≤ countUsed then 1000 - elapsedMs
    else 0
  ⟨countUsed, remaining, sleepDur, slept, didReset⟩

/-- The divisor as the spec words it: `remaining = max(rate − count, 1)`
under ordinary (non-wrapping) integer arithmetic.  Over `Nat`,
`Nat.max (rate - count) 1` is that value (truncated subtraction yields
`0 ≤ 1` exactly when the integer difference is `≤ 1`). -/
def remainingSpec (rate count : Nat) : Nat :=
  Nat.max (rate - count) 1

/-! ## `bencher/src/extractor.rs` and `program/src/processors.rs`

Byte-level model of the account-update correlation: what
`account_update_extractor` reads from the decoded account data, and
where `simple_byte_set` writes the iteration id. -/

/-- Little-endian `u64` of the first 8 entries of a byte list. -/
def leU64 (bytes : List Nat) : Nat :=
  match bytes with
  | b0 :: b1 :: b2 :: b3 :: b4 :: b5 :: b6 :: b7 :: _ =>
      b0 + 256 * (b1 + 256 * (b2 + 256 * (b3 + 256 *
        (b4 + 256 * (b5 + 256 * (b6 + 256 * b7))))))
  | _ => 0

/-- The 8 little-endian bytes of a `u64` (`u64::to_le_bytes`). -/
def u64LeBytes (id : Nat) : List Nat :=
  [id % 256, id / 256 % 256, id / 65536 % 256, id / 16777216 % 256,
   id / 4294967296 % 256, id / 1099511627776 % 256,
   id / 281474976710656 % 256, id / 72057594037927936 % 256]

/-- The byte-reading stage of `account_update_extractor` applied to the
already-decoded account data: `data.get(..8)?` then
`u64::from_le_bytes`. -/
def accountUpdateValue (data : List Nat) : Option Nat :=
  if 8 ≤ data.length then some (leU64 (data.take 8)) else none

/-- Modelled from the spec: the byte-reading stage as the spec describes
it — "ignores the 32-byte prefix, and reads a little-endian u64 from the
next 8 bytes" (offsets 32..40). -/
def accountUpdateValueSpec (data : List Nat) : Option Nat :=
  if 40 ≤ data.length then some (leU64 ((data.drop 32).take 8)) else none

/-- `prepare_buffer`: copy `buf` into `data` at position `index`
(callers guarantee `index + buf.length ≤ data.length`). -/
def writeAt (data : List Nat) (index : Nat) (buf : List Nat) : List Nat :=
  data.take index ++ buf ++ data.drop (index + buf.length)

/-- The `while index + buffer.len() <= data.len()` fill loop of
`simple_byte_set`, writing the 8 little-endian bytes of `id` repeatedly
from `index` to the end of the account data. -/
def fillLoop (data : List Nat) (id : Nat) (index : Nat) : List Nat :=
  if h : index + 8 ≤ data.length then
    fillLoop (writeAt data index (u64LeBytes id)) id (index + 8)
  else data
  termination_by data.length - index
  decreasing_by
    simp only [writeAt, u64LeBytes, List.length_append, List.length_take,
      List.length_drop, List.length_cons, List.length_nil]
    omega

/-- `simple_byte_set` on one account: the on-chain program fills the data
with the iteration id starting at `data_offset() = 32` (the first 32
bytes are the owner pubkey, preserved). -/
def simpleByteSetData (data : List Nat) (id : Nat) : List Nat :=
  fillLoop data id 32

/-! ## `bencher/src/websocket.rs`: `WsWorker::handle_frame`

Text frames are modelled by what the worker inspects: an ack carries a
local `id` and a server-assigned `result` (remote id); a notification
carries `params.subscription` (remote id) and the extractor's output on
`params.result` (`none` when extraction fails).  Delivery through a
subscription's channel is recorded in the returned list; a closed
channel (`tx.send(..).is_err()`) is modelled by `txOpen = false`. -/

/-- `Subscription<V>`: caller channel (its open/closed state), the
one-shot flag, and the caller's local id. -/
structure WsSubscription where
  txOpen : Bool
  oneshot : Bool
  id : Nat
  deriving Repr, DecidableEq

/-- The extractor-relevant content of a notification frame. -/
structure WsNotif where
  sub : Nat
  value : Option Nat
  deriving Repr, DecidableEq

/-- A text frame as `handle_frame` classifies it: a subscription
confirmation (`{id, result}` at top level) or a notification. -/
inductive WsFrame where
  | ack (id : Nat) (result : Nat)
  | notif (n : WsNotif)
  deriving Repr, DecidableEq

/-- The per-socket worker state: active subscriptions keyed by remote id,
pending subscriptions keyed by local id, and the buffered payloads keyed
by remote id. -/
structure WsWorker where
  subscriptions : List (Nat × WsSubscription)
  pending : List (Nat × WsSubscription)
  buffered : List (Nat × WsNotif)
  deriving Repr, DecidableEq

/-- The notification-processing tail of `handle_frame`: extract, then
either buffer under an unknown remote id, or send through the
subscription's channel (removing it when the send fails or the
subscription is one-shot). -/
def processNotif (w : WsWorker) (n : WsNotif) : WsWorker × List (Nat × Nat) :=
  match n.value with
  | none => (w, [])
  | some v =>
      match mapLookup w.subscriptions n.sub with
      | none => ({ w with buffered := mapInsert w.buffered n.sub n }, [])
      | some sub =>
          let delivered := if sub.txOpen then [(sub.id, v)] else []
          if sub.txOpen = false || sub.oneshot then
            ({ w with subscriptions := mapErase w.subscriptions n.sub }, delivered)
          else (w, delivered)

/-- `WsWorker::handle_frame`: on an ack, move the pending slot to the
active map under the remote id and process the buffered payload if one
exists; otherwise process the frame as a notification.  Returns the new
state and the `(local id, value)` pairs sent to the confirmation
channel. -/
def handleFrame (w : WsWorker) (f : WsFrame) : WsWorker × List (Nat × Nat) :=
  match f with
  | .ack id result =>
      match mapLookup w.pending id with
      | some sub =>
          let w₁ : WsWorker :=
            { w with pending := mapErase w.pending id,
                     subscriptions := mapInsert w.subscriptions result sub }
          match mapLookup w₁.buffered result with
          | some pl =>
              processNotif { w₁ with buffered := mapErase w₁.buffered result } pl
          | none => (w₁, [])
      | none => (w, [])
  | .notif n => processNotif w n

/-- Process a list of frames, accumulating everything delivered to the
confirmation channel. -/
def handleFrames (w : WsWorker) (fs : List WsFrame) : WsWorker × List (Nat × Nat) :=
  match fs with
  | [] => (w, [])
  | f :: rest =>
      let (w₁, out₁) := handleFrame w f
      let (w₂, out₂) := handleFrames w₁ rest
      (w₂, out₁ ++ out₂)

/-! ## `bencher/src/payload.rs` and `bencher/src/requests.rs`

The `sendTransaction` payload fields the claims mention, and the
account-list behaviour of `MixedRequestBuilder`. -/

/-- The two option fields of the `sendTransaction` JSON-RPC payload. -/
structure SendTxPayload where
  skipPreflight : Bool
  preflightCommitment : String
  deriving Repr, DecidableEq

/-- `payload::transaction(tx, check)` emits
`"skipPreflight": !check, "preflightCommitment": "processed"`. -/
def payloadTransaction (check : Bool) : SendTxPayload :=
  ⟨!check, "processed"⟩

/-- `TransactionRequestBuilder::build` calls
`payload::transaction(&tx, false)` — the literal `false`, not the
configured `benchmark.preflight-check` flag (which is therefore
ignored; the parameter records the configured flag to state the claim
against). -/
def transactionRequestBuildPayload (_preflightCheck : Bool) : SendTxPayload :=
  payloadTransaction false

/-- A child of `MixedRequestBuilder`, reduced to the capability the claim
is about: its `accounts()` list (addresses as numbers). -/
structure ChildBuilder where
  accounts : List Nat
  deriving Repr, DecidableEq

/-- `MixedRequestBuilder::accounts`:
`self.providers.first().map(|p| p.accounts()).unwrap_or_default()`. -/
def mixedAccounts (providers : List ChildBuilder) : List Nat :=
  ((providers.head?).map ChildBuilder.accounts).getD []

/-- Modelled from the spec: "`accounts()` is the union across children"
— the concatenation of every child's accounts (membership in it is
membership in some child's list, which is what any reading of "union"
gives). -/
def unionAccounts (providers : List ChildBuilder) : List Nat :=
  (providers.map ChildBuilder.accounts).flatten

/-! ## `bencher/src/transfer.rs`: `TransferManager::transfer`

Instants are natural-number timestamps in milliseconds; `last` is set at
construction and — exactly as in the source — never written again. -/

/-- `TransferManager` state relevant to `transfer`: the PDA queue, the
stored `last` instant, and the configured `clone-frequency-ms`. -/
structure TransferManager where
  pdas : List Nat
  last : Nat
  frequency : Nat
  deriving Repr, DecidableEq

/-- `TransferManager::transfer` at time `now`: return immediately when
the feature is disabled, when less than `frequency` has elapsed since
`last`, or when the queue is empty; otherwise dequeue the head PDA,
submit the transfer, and re-enqueue the PDA at the tail.  The boolean
reports whether a transfer fired.  `last` is not updated on fire. -/
def TransferManager.transfer (m : TransferManager) (now : Nat) :
    TransferManager × Bool :=
  if m.frequency = 0 then (m, false)
  else if now - m.last < m.frequency then (m, false)
  else
    match m.pdas with
    | [] => (m, false)
    | pda :: rest => ({ m with pdas := rest ++ [pda] }, true)

/-! ## `bencher/src/http.rs`: `ConnectionPool` and `ConnectionGuard`

Connections are identified by numbers.  `ConnectionPool::connection`
panics through `.expect("connection pool should not be empty")` when
both queues are empty; the panic is modelled as `Except.error`. -/

/-- The pool's two FIFO queues. -/
structure ConnectionPool where
  ready : List Nat
  busy : List Nat
  deriving Repr, DecidableEq

/-- `ConnectionPool::new`: all `n` connections start in `ready`,
`busy` starts empty. -/
def poolNew (n : Nat) : ConnectionPool :=
  ⟨List.range n, []⟩

/-- `ConnectionPool::connection`: pop the front of `ready` if non-empty;
otherwise pop the front of `busy` (awaiting its readiness) — and panic
if `busy` is empty too. -/
def poolConnection (p : ConnectionPool) : Except Unit (Nat × ConnectionPool) :=
  match p.ready with
  | c :: rest => .ok (c, ⟨rest, p.busy⟩)
  | [] =>
      match p.busy with
      | c :: rest => .ok (c, ⟨[], rest⟩)
      | [] => .error ()

/-- `ConnectionGuard::drop`: re-enqueue the held connection at the tail
of `ready`. -/
def guardDrop (p : ConnectionPool) (c : Nat) : ConnectionPool :=
  { p with ready := p.ready ++ [c] }

/-- The pool operations an engine can perform. -/
inductive PoolOp where
  | acquire
  | release (c : Nat)
  deriving Repr, DecidableEq

/-- Apply one pool operation (a panicking `acquire` leaves the state as
is; no further state exists after a panic). -/
def poolApply (p : ConnectionPool) (op : PoolOp) : ConnectionPool :=
  match op with
  | .acquire =>
      match poolConnection p with
      | .ok (_, p₁) => p₁
      | .error _ => p
  | .release c => guardDrop p c

/-- The pool state reached from `poolNew n` by a sequence of
operations. -/
def poolRun (n : Nat) (ops : List PoolOp) : ConnectionPool :=
  ops.foldl poolApply (poolNew n)

/-! ## Association-map lemmas -/

theorem mapLookup_insert_self {α : Type _} (m : List (Nat × α)) (k : Nat) (v : α) :
    mapLookup (mapInsert m k v) k = some v := by
  simp [mapInsert, mapLookup]

theorem mapLookup_erase_ne {α : Type _} (m : List (Nat × α)) (k k' : Nat)
    (h : k ≠ k') : mapLookup (mapErase m k) k' = mapLookup m k' := by
  induction m with
  | nil => rfl
  | cons hd tl ih =>
      by_cases hk : hd.1 = k
      · have hk2 : ¬ hd.1 = k' := by rw [hk]; exact h
        have he : mapErase (hd :: tl) k = mapErase tl k := by
          simp [mapErase, List.filter_cons, hk]
        rw [he, ih]
        simp [mapLookup, hk2]
      · have he : mapErase (hd :: tl) k = hd :: mapErase tl k := by
          simp [mapErase, List.filter_cons, hk]
        rw [he]
        by_cases hk' : hd.1 = k'
        · simp [mapLookup, hk']
        · simp [mapLookup, hk', ih]

theorem mapLookup_erase_self {α : Type _} (m : List (Nat × α)) (k : Nat) :
    mapLookup (mapErase m k) k = none := by
  induction m with
  | nil => rfl
  | cons hd tl ih =>
      by_cases hk : hd.1 = k
      · have he : mapErase (hd :: tl) k = mapErase tl k := by
          simp [mapErase, List.filter_cons, hk]
        rw [he]
        exact ih
      · have he : mapErase (hd :: tl) k = hd :: mapErase tl k := by
          simp [mapErase, List.filter_cons, hk]
        rw [he]
        simpa [mapLookup, hk] using ih

theorem mapLookup_insert_ne {α : Type _} (m : List (Nat × α)) (k k' : Nat) (v : α)
    (h : k ≠ k') : mapLookup (mapInsert m k v) k' = mapLookup m k' := by
  simp [mapInsert, mapLookup, h, mapLookup_erase_ne m k k' h]

/-! ## C10: the HTTP pool's busy queue -/

theorem poolApply_busy_empty (p : ConnectionPool) (op : PoolOp)
    (h : p.busy = []) : (poolApply p op).busy = [] := by
  cases op with
  | acquire =>
      cases hr : p.ready with
      | nil => simp [poolApply, poolConnection, hr, h]
      | cons c rest => simp [poolApply, poolConnection, hr, h]
  | release c => simpa [poolApply, guardDrop] using h

theorem poolFold_busy_empty (ops : List PoolOp) :
    ∀ p : ConnectionPool, p.busy = [] → (ops.foldl poolApply p).busy = [] := by
  induction ops with
  | nil => intro p h; simpa using h
  | cons op rest ih =>
      intro p h
      exact ih (poolApply p op) (poolApply_busy_empty p op h)

/-- C10: in every reachable state of the HTTP `ConnectionPool` the busy
queue is empty — the initial state starts it empty, dropping a
`ConnectionGuard` re-enqueues the connection at the tail of `ready` and
leaves `busy` alone, and no operation ever inserts into `busy`; hence
when `connection()` is called with every connection checked out (both
queues empty) it panics on `.expect` instead of waiting. -/
theorem c10_busy_queue_always_empty (n : Nat) (ops : List PoolOp)
    (p : ConnectionPool) (c : Nat) (hb : p.busy = []) (hr : p.ready = []) :
    (poolRun n ops).busy = [] ∧
    (guardDrop p c).ready = p.ready ++ [c] ∧
    (guardDrop p c).busy = p.busy ∧
    poolConnection p = .error () := by
  refine ⟨?_, rfl, rfl, ?_⟩
  · exact poolFold_busy_empty ops (poolNew n) rfl
  · simp [poolConnection, hb, hr]

/-- C10 witness: the invariant and the panic case at a concrete pool. -/
theorem c10_busy_queue_always_empty_witness :
    (poolRun 2 [.acquire, .acquire, .release 0]).busy = [] ∧
    (guardDrop ⟨[], []⟩ 7).ready = ([] : List Nat) ++ [7] ∧
    (guardDrop ⟨[], []⟩ 7).busy = (⟨[], []⟩ : ConnectionPool).busy ∧
    poolConnection ⟨[], []⟩ = .error () :=
  c10_busy_queue_always_empty 2 [.acquire, .acquire, .release 0] ⟨[], []⟩ 7 rfl rfl

/-! ## C9: the transfer pulser never re-arms its cooldown -/

/-- C9: the claim that no two transfer fires occur less than
`clone_frequency_ms` apart fails on the code: `last` is set at
construction and never updated on fire, so once `frequency` has elapsed
since construction every tick fires.  With `frequency = 100`,
construction at `0` and ticks at `100` and `101`, both ticks fire
although they are 1 ms apart; the dequeue/re-enqueue of the head PDA
does behave as claimed. -/
theorem c9_fires_back_to_back :
    ((⟨[7, 8], 0, 100⟩ : TransferManager).transfer 100).2 = true ∧
    ((⟨[7, 8], 0, 100⟩ : TransferManager).transfer 100).1.pdas = [8, 7] ∧
    ((⟨[7, 8], 0, 100⟩ : TransferManager).transfer 100).1.last = 0 ∧
    (((⟨[7, 8], 0, 100⟩ : TransferManager).transfer 100).1.transfer 101).2 = true ∧
    101 - 100 < 100 := by
  decide

/-! ## C5: `skipPreflight` is hardcoded -/

/-- C5: the claim that `skipPreflight = !preflight-check` fails on the
code: `TransactionRequestBuilder::build` passes the literal `false` to
`payload::transaction`, so `skipPreflight` is `true` regardless of the
configured `benchmark.preflight-check` flag — evaluated here at
`preflight-check = true`, where the claim demands `false`.  The
`preflightCommitment = "processed"` conjunct does hold. -/
theorem c5_skip_preflight_hardcoded :
    (transactionRequestBuildPayload true).skipPreflight = true ∧
    (transactionRequestBuildPayload true).preflightCommitment = "processed" ∧
    (transactionRequestBuildPayload true).skipPreflight ≠ (!true) := by
  refine ⟨rfl, rfl, by decide⟩

/-! ## C6: `MixedRequestBuilder::accounts` -/

/-- C6 counterexample: with two children owning accounts `[1]` and `[2]`,
the union contains `2` but `MixedRequestBuilder::accounts` returns only
the first child's list `[1]`. -/
theorem c6_accounts_not_union :
    2 ∈ unionAccounts [⟨[1]⟩, ⟨[2]⟩] ∧
    2 ∉ mixedAccounts [⟨[1]⟩, ⟨[2]⟩] ∧
    mixedAccounts [⟨[1]⟩, ⟨[2]⟩] ≠ unionAccounts [⟨[1]⟩, ⟨[2]⟩] := by
  decide

/-- C6 amended: for every `MixedRequestBuilder` with a non-empty list of
children, `accounts()` returns the accounts of the FIRST child
(`providers.first().map(..).unwrap_or_default()`), not the union. -/
theorem c6_accounts_first_child (providers : List ChildBuilder)
    (c : ChildBuilder) (h : providers.head? = some c) :
    mixedAccounts providers = c.accounts := by
  simp [mixedAccounts, h]

/-- C6 witness: the amended statement at a concrete two-child builder. -/
theorem c6_accounts_first_child_witness :
    ([⟨[1]⟩, ⟨[2]⟩] : List ChildBuilder).head? = some ⟨[1]⟩ ∧
    mixedAccounts [⟨[1]⟩, ⟨[2]⟩] = ChildBuilder.accounts ⟨[1]⟩ :=
  ⟨rfl, c6_accounts_first_child [⟨[1]⟩, ⟨[2]⟩] ⟨[1]⟩ rfl⟩

/-! ## C7: algebra of `ObservationsStats::merge` on pairs -/

theorem mergePair_count (a b : ObservationsStats) :
    (mergePair a b).count = ((0 + a.count) % u64Mod + b.count) % u64Mod := rfl

theorem mergePair_min (a b : ObservationsStats) :
    (mergePair a b).min = min (min u32Max a.min) b.min := rfl

theorem mergePair_max (a b : ObservationsStats) :
    (mergePair a b).max = max (max 0 a.max) b.max := rfl

theorem mergePair_median (a b : ObservationsStats) :
    (mergePair a b).median
      = Int.tdiv (wrap32 (wrap32 (0 + a.median) + b.median)) 2 := rfl

theorem mergePair_avg (a b : ObservationsStats) :
    (mergePair a b).avg = Int.tdiv (wrap32 (wrap32 (0 + a.avg) + b.avg)) 2 := rfl

theorem mergePair_quantile95 (a b : ObservationsStats) :
    (mergePair a b).quantile95
      = Int.tdiv (wrap32 (wrap32 (0 + a.quantile95) + b.quantile95)) 2 := rfl

theorem mergePair_stddev (a b : ObservationsStats) :
    (mergePair a b).stddev
      = ((0 + a.stddev) % u32Mod + b.stddev) % u32Mod / 2 := rfl

/-- C7: viewing `merge` of a pair under latency semantics as a binary
operation, the `count`, `min` and `max` fields are associative and
commutative in the two arguments, and the averaged fields (`median`,
`avg`, `quantile95`, `stddev`) are commutative. -/
theorem c7_merge_pair_algebra (a b c : ObservationsStats) :
    (mergePair (mergePair a b) c).count = (mergePair a (mergePair b c)).count ∧
    (mergePair (mergePair a b) c).min = (mergePair a (mergePair b c)).min ∧
    (mergePair (mergePair a b) c).max = (mergePair a (mergePair b c)).max ∧
    (mergePair a b).count = (mergePair b a).count ∧
    (mergePair a b).min = (mergePair b a).min ∧
    (mergePair a b).max = (mergePair b a).max ∧
    (mergePair a b).median = (mergePair b a).median ∧
    (mergePair a b).avg = (mergePair b a).avg ∧
    (mergePair a b).quantile95 = (mergePair b a).quantile95 ∧
    (mergePair a b).stddev = (mergePair b a).stddev := by
  refine ⟨?_, ?_, ?_, ?_, ?_, ?_, ?_, ?_, ?_, ?_⟩ <;>
    simp only [mergePair_count, mergePair_min, mergePair_max,
      mergePair_median, mergePair_avg, mergePair_quantile95,
      mergePair_stddev, wrap32, u64Mod, u32Mod] <;>
    first
      | omega
      | (congr 1 <;> omega)
      | simp [min_assoc, min_comm, min_left_comm, max_assoc, max_comm,
          max_left_comm]

/-! ## C8: `Confirmations::observe` takes effect once per id -/

/-- C8: for a tracked id, the first `observe` removes the pending entry,
appends exactly one latency observation, and fires the optional oneshot
sender; a second `observe` for the same id is a no-op, and `observe` of
an id that was never tracked leaves the state unchanged and sends
nothing. -/
theorem c8_observe_first_wins (c : Confirmations) (id v v2 now now2 : Nat)
    (p : PendingConfirmation) (h : mapLookup c.pending id = some p) :
    (c.observe id v now).1.pending = mapErase c.pending id ∧
    (c.observe id v now).1.observations = c.observations ++ [now - p.start] ∧
    (c.observe id v now).2 = p.tx.map (fun t => (t, v)) ∧
    (c.observe id v now).1.observe id v2 now2 = ((c.observe id v now).1, none) ∧
    (∀ (d : Confirmations) (w m : Nat), mapLookup d.pending id = none →
      d.observe id w m = (d, none)) := by
  have h1 : c.observe id v now
      = (⟨mapErase c.pending id, c.observations ++ [now - p.start]⟩,
         p.tx.map (fun t => (t, v))) := by
    simp [Confirmations.observe, h]
  refine ⟨?_, ?_, ?_, ?_, ?_⟩
  · rw [h1]
  · rw [h1]
  · rw [h1]
  · rw [h1]
    simp [Confirmations.observe, mapLookup_erase_self]
  · intro d w m hd
    simp [Confirmations.observe, hd]

/-- C8 witness: the statement at the tracker holding a single tracked id
with an attached oneshot sender. -/
theorem c8_observe_first_wins_witness :
    mapLookup (Confirmations.empty.track 1 0 (some 9)).pending 1
      = some ⟨0, some 9⟩ ∧
    (((Confirmations.empty.track 1 0 (some 9)).observe 1 4 6).1.pending
        = mapErase (Confirmations.empty.track 1 0 (some 9)).pending 1 ∧
      ((Confirmations.empty.track 1 0 (some 9)).observe 1 4 6).1.observations
        = (Confirmations.empty.track 1 0 (some 9)).observations ++ [6 - 0] ∧
      ((Confirmations.empty.track 1 0 (some 9)).observe 1 4 6).2
        = (Option.some 9).map (fun t => (t, 4)) ∧
      (((Confirmations.empty.track 1 0 (some 9)).observe 1 4 6).1.observe 1 5 7)
        = ((((Confirmations.empty.track 1 0 (some 9)).observe 1 4 6).1), none) ∧
      (∀ (d : Confirmations) (w m : Nat), mapLookup d.pending 1 = none →
        d.observe 1 w m = (d, none))) :=
  ⟨rfl, c8_observe_first_wins (Confirmations.empty.track 1 0 (some 9))
    1 4 5 6 7 ⟨0, some 9⟩ rfl⟩

/-! ## C2: the rate governor's pacing divisor -/

/-- C2 counterexample: in the initial state of a governor configured
with `rate = 0` (the configuration does not validate `benchmark.rate`),
the first `tick` increments `count` to `1 > rate` within the current
epoch, and the `u32` subtraction `rate - count` wraps: the divisor is
`2^32 - 1`, not `max(rate − count, 1) = 1`. -/
theorem c2_divisor_wraps :
    (rateTick 0 0 0).countAfter = 1 ∧
    (rateTick 0 0 0).remaining = 4294967295 ∧
    remainingSpec 0 (rateTick 0 0 0).countAfter = 1 ∧
    (rateTick 0 0 0).remaining ≠ remainingSpec 0 (rateTick 0 0 0).countAfter := by
  decide

/-- C2 amended: whenever the post-increment count does not exceed `rate`
(which holds in every reachable state as long as `rate ≥ 1`), the pacing
divisor equals `max(rate − count, 1)` and the computed per-tick sleep
duration equals `(1000ms − elapsed_ms) / remaining`, with saturating
subtraction (so zero once `elapsed_ms > 1000`, e.g. on the post-stall
tick that also resets the epoch); when the count exceeds `rate` the
`u32` subtraction wraps instead. -/
theorem c2_tick_arithmetic (rate count elapsedUs : Nat)
    (hrate : rate < u32Mod)
    (hcount : (rateTick rate count elapsedUs).countAfter ≤ rate) :
    (rateTick rate count elapsedUs).remaining
      = remainingSpec rate (rateTick rate count elapsedUs).countAfter ∧
    (rateTick rate count elapsedUs).sleepDur
      = (1000 - elapsedUs / 1000)
          / remainingSpec rate (rateTick rate count elapsedUs).countAfter := by
  by_cases h1000 : 1000000 ≤ elapsedUs
  · simp only [rateTick, remainingSpec, h1000, if_true, if_pos] at hcount ⊢
    have harg : (rate + u32Mod - 0 % u32Mod) % u32Mod = rate - 0 := by
      simp only [u32Mod] at hrate ⊢
      omega
    rw [harg]
    exact ⟨rfl, rfl⟩
  · simp only [rateTick, remainingSpec, h1000, if_false, if_neg,
      not_false_iff] at hcount ⊢
    have harg : (rate + u32Mod - (count + 1) % u32Mod % u32Mod) % u32Mod
        = rate - (count + 1) % u32Mod := by
      simp only [u32Mod] at hrate hcount ⊢
      omega
    rw [harg]
    exact ⟨rfl, rfl⟩

/-- C2 witness: a governor at `rate = 5`, stored count `2`, 500 ms into
the epoch: the divisor is `max(5 − 3, 1) = 2` and the computed sleep is
`(1000 − 500) / 2 = 250` ms. -/
theorem c2_tick_arithmetic_witness :
    (5 : Nat) < u32Mod ∧ (rateTick 5 2 500000).countAfter ≤ 5 ∧
    ((rateTick 5 2 500000).remaining
        = remainingSpec 5 (rateTick 5 2 500000).countAfter ∧
      (rateTick 5 2 500000).sleepDur
        = (1000 - 500000 / 1000)
            / remainingSpec 5 (rateTick 5 2 500000).countAfter) :=
  ⟨by decide, by decide,
   c2_tick_arithmetic 5 2 500000 (by decide) (by decide)⟩

/-! ## C4: pre-ack WS notifications -/

/-- C4 counterexample: two notifications for remote id `9` arrive before
the ack of the pending subscription with local id `5`; only the second
buffered payload (value `11`) is delivered once the ack arrives — the
first pre-ack notification (value `10`) is overwritten in the buffer and
dropped, refuting "no pre-ack notification is ever dropped". -/
theorem c4_first_preack_notification_dropped :
    (handleFrames ⟨[], [(5, ⟨true, false, 1⟩)], []⟩
        [.notif ⟨9, some 10⟩, .notif ⟨9, some 11⟩, .ack 5 9]).2 = [(1, 11)] ∧
    (1, 10) ∉ (handleFrames ⟨[], [(5, ⟨true, false, 1⟩)], []⟩
        [.notif ⟨9, some 10⟩, .notif ⟨9, some 11⟩, .ack 5 9]).2 := by
  decide

/-- C4 amended: a notification arriving before its ack is buffered under
the remote id, but the buffer holds at most ONE payload per remote id —
a later pre-ack notification replaces the earlier one, which is dropped;
when the ack arrives, the most recently buffered notification is
delivered immediately. -/
theorem c4_buffer_keeps_latest (w : WsWorker) (r v1 v2 : Nat)
    (hsub : mapLookup w.subscriptions r = none) :
    mapLookup (processNotif (processNotif w ⟨r, some v1⟩).1
        ⟨r, some v2⟩).1.buffered r = some ⟨r, some v2⟩ ∧
    (processNotif w ⟨r, some v1⟩).2 = [] ∧
    (processNotif (processNotif w ⟨r, some v1⟩).1 ⟨r, some v2⟩).2 = [] ∧
    (∀ (l : Nat) (sub : WsSubscription) (n : WsNotif) (v : Nat),
      mapLookup w.pending l = some sub → mapLookup w.buffered r = some n →
      n.sub = r → n.value = some v → sub.txOpen = true →
      (handleFrame w (.ack l r)).2 = [(sub.id, v)]) := by
  have h1 : processNotif w ⟨r, some v1⟩
      = ({ w with buffered := mapInsert w.buffered r ⟨r, some v1⟩ }, []) := by
    simp [processNotif, hsub]
  have h2 : processNotif (processNotif w ⟨r, some v1⟩).1 ⟨r, some v2⟩
      = ({ w with buffered := mapInsert (mapInsert w.buffered r ⟨r, some v1⟩) r ⟨r, some v2⟩ }, []) := by
    rw [h1]
    simp [processNotif, hsub]
  refine ⟨?_, ?_, ?_, ?_⟩
  · rw [h2]
    exact mapLookup_insert_self _ _ _
  · rw [h1]
  · rw [h2]
  · intro l sub n v hp hb hns hnv htx
    rcases n with ⟨ns, nv⟩
    simp only at hns hnv
    subst hns
    subst hnv
    simp [handleFrame, hp, hb, processNotif, mapLookup_insert_self, htx]
    split <;> rfl

/-- C4 witness: the amended statement at a concrete worker holding one
pending subscription and one buffered notification. -/
theorem c4_buffer_keeps_latest_witness :
    mapLookup (⟨[], [(5, ⟨true, false, 1⟩)],
        [(9, ⟨9, some 11⟩)]⟩ : WsWorker).subscriptions 9 = none ∧
    (mapLookup (processNotif (processNotif ⟨[], [(5, ⟨true, false, 1⟩)],
          [(9, ⟨9, some 11⟩)]⟩ ⟨9, some 20⟩).1 ⟨9, some 21⟩).1.buffered 9
        = some ⟨9, some 21⟩ ∧
      (processNotif ⟨[], [(5, ⟨true, false, 1⟩)],
          [(9, ⟨9, some 11⟩)]⟩ ⟨9, some 20⟩).2 = [] ∧
      (processNotif (processNotif ⟨[], [(5, ⟨true, false, 1⟩)],
          [(9, ⟨9, some 11⟩)]⟩ ⟨9, some 20⟩).1 ⟨9, some 21⟩).2 = [] ∧
      (∀ (l : Nat) (sub : WsSubscription) (n : WsNotif) (v : Nat),
        mapLookup (⟨[], [(5, ⟨true, false, 1⟩)],
            [(9, ⟨9, some 11⟩)]⟩ : WsWorker).pending l = some sub →
        mapLookup (⟨[], [(5, ⟨true, false, 1⟩)],
            [(9, ⟨9, some 11⟩)]⟩ : WsWorker).buffered 9 = some n →
        n.sub = 9 → n.value = some v → sub.txOpen = true →
        (handleFrame ⟨[], [(5, ⟨true, false, 1⟩)], [(9, ⟨9, some 11⟩)]⟩
            (.ack l 9)).2 = [(sub.id, v)])) :=
  ⟨rfl, c4_buffer_keeps_latest ⟨[], [(5, ⟨true, false, 1⟩)],
    [(9, ⟨9, some 11⟩)]⟩ 9 20 21 rfl⟩

/-! ## C3: the account-update extractor vs the on-chain write offset -/

theorem fillLoop_length (data : List Nat) (id index : Nat) :
    (fillLoop data id index).length = data.length := by
  induction data, id, index using fillLoop.induct with
  | case1 data id index h ih =>
      rw [fillLoop]
      simp only [h, dif_pos]
      rw [ih]
      simp only [writeAt, u64LeBytes, List.length_append, List.length_take,
        List.length_drop, List.length_cons, List.length_nil]
      omega
  | case2 data id index h =>
      rw [fillLoop]
      simp [h]

theorem fillLoop_take (data : List Nat) (id index : Nat) :
    ∀ k, k ≤ index → (fillLoop data id index).take k = data.take k := by
  induction data, id, index using fillLoop.induct with
  | case1 data id index h ih =>
      intro k hk
      rw [fillLoop]
      simp only [h, dif_pos]
      rw [ih k (by omega)]
      have hl : (data.take index).length = index := by
        simp only [List.length_take]
        omega
      simp only [writeAt, List.append_assoc]
      rw [List.take_append_of_le_length (by rw [hl]; exact hk)]
      rw [List.take_take, min_eq_left hk]
  | case2 data id index h =>
      intro k hk
      rw [fillLoop]
      simp [h]

/-- The on-chain program really does write the iteration id at offsets
32..40 of the account data (after the 32-byte owner pubkey), as the
claim and the spec describe. -/
theorem simpleByteSet_writes_id (data : List Nat) (id : Nat)
    (h : 40 ≤ data.length) :
    (simpleByteSetData data id).take 40 = data.take 32 ++ u64LeBytes id := by
  unfold simpleByteSetData
  rw [fillLoop]
  have h32 : 32 + 8 ≤ data.length := by omega
  simp only [h32, dif_pos]
  rw [fillLoop_take _ _ _ 40 (le_refl 40)]
  have hl : (data.take 32).length = 32 := by
    simp only [List.length_take]
    omega
  simp only [writeAt, List.append_assoc]
  rw [List.take_append_eq_append_take, hl, List.take_take]
  norm_num
  rw [List.take_append_of_le_length (by simp [u64LeBytes])]
  simp [u64LeBytes]

set_option maxRecDepth 8000

/-- C3: the account-update extractor does NOT skip the 32-byte owner
prefix — it reads the little-endian u64 from bytes 0..8 of the decoded
data, while `simple_byte_set` writes the iteration id at bytes 32..40.
On an account whose owner pubkey starts with byte `7` (the rest zero)
and iteration id `5`, the extractor returns `7` (the owner-prefix
bytes), whereas reading at offset 32..40 as the claim describes returns
the id `5`. -/
theorem c3_extractor_reads_wrong_offset :
    accountUpdateValue (simpleByteSetData (7 :: List.replicate 127 0) 5) = some 7 ∧
    accountUpdateValueSpec (simpleByteSetData (7 :: List.replicate 127 0) 5) = some 5 ∧
    accountUpdateValue (simpleByteSetData (7 :: List.replicate 127 0) 5)
      ≠ accountUpdateValueSpec (simpleByteSetData (7 :: List.replicate 127 0) 5) := by
  have hlen : (simpleByteSetData (7 :: List.replicate 127 0) 5).length = 128 := by
    unfold simpleByteSetData
    rw [fillLoop_length]
    decide
  have h8 : (simpleByteSetData (7 :: List.replicate 127 0) 5).take 8
      = [7, 0, 0, 0, 0, 0, 0, 0] := by
    unfold simpleByteSetData
    rw [fillLoop_take _ _ _ 8 (by omega)]
    decide
  have h40 : (simpleByteSetData (7 :: List.replicate 127 0) 5).take 40
      = (7 :: List.replicate 127 0).take 32 ++ u64LeBytes 5 :=
    simpleByteSet_writes_id _ 5 (by decide)
  have hslice : ((simpleByteSetData (7 :: List.replicate 127 0) 5).drop 32).take 8
      = u64LeBytes 5 := by
    have hdt := List.drop_take 40 32 (simpleByteSetData (7 :: List.replicate 127 0) 5)
    norm_num at hdt
    rw [← hdt, h40]
    decide
  have e1 : accountUpdateValue (simpleByteSetData (7 :: List.replicate 127 0) 5)
      = some 7 := by
    simp only [accountUpdateValue, hlen]
    rw [h8]
    decide
  have e2 : accountUpdateValueSpec (simpleByteSetData (7 :: List.replicate 127 0) 5)
      = some 5 := by
    simp only [accountUpdateValueSpec, hlen]
    rw [hslice]
    decide
  exact ⟨e1, e2, by rw [e1, e2]; decide⟩

/-! ## C1: tracker pending maps over a whole run -/

theorem track_lookup_self (c : Confirmations) (id now : Nat) (tx : Option Nat) :
    mapLookup (c.track id now tx).pending id = some ⟨now, tx⟩ := by
  simp [Confirmations.track, mapLookup_insert_self]

theorem track_lookup_ne (c : Confirmations) (id now : Nat) (tx : Option Nat)
    (k : Nat) (h : id ≠ k) :
    mapLookup (c.track id now tx).pending k = mapLookup c.pending k := by
  simp [Confirmations.track, mapLookup_insert_ne _ _ _ _ h]

theorem observe_lookup_self (c : Confirmations) (id v now : Nat) :
    mapLookup (c.observe id v now).1.pending id = none := by
  cases hl : mapLookup c.pending id with
  | none => simpa [Confirmations.observe, hl] using hl
  | some p => simp [Confirmations.observe, hl, mapLookup_erase_self]

theorem observe_lookup_ne (c : Confirmations) (id v now k : Nat) (h : id ≠ k) :
    mapLookup (c.observe id v now).1.pending k = mapLookup c.pending k := by
  cases hl : mapLookup c.pending id with
  | none => simp [Confirmations.observe, hl]
  | some p => simp [Confirmations.observe, hl, mapLookup_erase_ne _ _ _ h]

theorem remove_lookup_self (c : Confirmations) (id : Nat) :
    mapLookup (c.remove id).pending id = none := by
  simp [Confirmations.remove, mapLookup_erase_self]

theorem remove_lookup_ne (c : Confirmations) (id k : Nat) (h : id ≠ k) :
    mapLookup (c.remove id).pending k = mapLookup c.pending k := by
  simp [Confirmations.remove, mapLookup_erase_ne _ _ _ h]

theorem deliveryStep_lookup_self (c : Confirmations) (i : Nat) (s : StepInfo) :
    mapLookup (applyEvents c (deliveryEvents i s)).pending i
      = if s.deliveryResolved then none else some ⟨0, none⟩ := by
  cases hres : s.deliveryResolved <;>
    simp [deliveryEvents, applyEvents, applyEvent, hres, track_lookup_self,
      observe_lookup_self]

theorem deliveryStep_lookup_ne (c : Confirmations) (i : Nat) (s : StepInfo)
    (k : Nat) (h : i ≠ k) :
    mapLookup (applyEvents c (deliveryEvents i s)).pending k
      = mapLookup c.pending k := by
  cases hres : s.deliveryResolved <;>
    simp [deliveryEvents, applyEvents, applyEvent, hres,
      track_lookup_ne _ _ _ _ _ h, observe_lookup_ne _ _ _ _ _ h]

theorem signatureStep_lookup_self (f : RunFlags) (c : Confirmations) (i : Nat)
    (s : StepInfo) :
    mapLookup (applyEvents c (signatureEvents f i s)).pending i
      = if s.hasSig && f.subSigs then
          (if s.sigConfirmed then none
           else some ⟨0, if f.totalSync then some i else none⟩)
        else mapLookup c.pending i := by
  cases hh : s.hasSig <;> cases hs : f.subSigs <;> cases hc : s.sigConfirmed <;>
    simp [signatureEvents, applyEvents, applyEvent, hh, hs, hc,
      track_lookup_self, observe_lookup_self]

theorem signatureStep_lookup_ne (f : RunFlags) (c : Confirmations) (i : Nat)
    (s : StepInfo) (k : Nat) (h : i ≠ k) :
    mapLookup (applyEvents c (signatureEvents f i s)).pending k
      = mapLookup c.pending k := by
  cases hh : s.hasSig <;> cases hs : f.subSigs <;> cases hc : s.sigConfirmed <;>
    simp [signatureEvents, applyEvents, applyEvent, hh, hs, hc,
      track_lookup_ne _ _ _ _ _ h, observe_lookup_ne _ _ _ _ _ h]

theorem accountStep_lookup_self (f : RunFlags) (c : Confirmations) (i : Nat)
    (s : StepInfo) :
    mapLookup (applyEvents c (accountEvents f i s)).pending i
      = if s.hasSig && f.subAccts then
          (if s.acctConfirmed then none
           else if f.totalSync then none
           else some ⟨0, none⟩)
        else mapLookup c.pending i := by
  cases hh : s.hasSig <;> cases hs : f.subAccts <;> cases hc : s.acctConfirmed <;>
    cases ht : f.totalSync <;>
    simp [accountEvents, applyEvents, applyEvent, hh, hs, hc, ht,
      track_lookup_self, observe_lookup_self, remove_lookup_self]

theorem accountStep_lookup_ne (f : RunFlags) (c : Confirmations) (i : Nat)
    (s : StepInfo) (k : Nat) (h : i ≠ k) :
    mapLookup (applyEvents c (accountEvents f i s)).pending k
      = mapLookup c.pending k := by
  cases hh : s.hasSig <;> cases hs : f.subAccts <;> cases hc : s.acctConfirmed <;>
    cases ht : f.totalSync <;>
    simp [accountEvents, applyEvents, applyEvent, hh, hs, hc, ht,
      track_lookup_ne _ _ _ _ _ h, observe_lookup_ne _ _ _ _ _ h,
      remove_lookup_ne _ _ _ h]

theorem applyStep_lookup_ne (f : RunFlags) (i : Nat) (s : StepInfo)
    (t : RunTrackers) (k : Nat) (h : i ≠ k) :
    mapLookup (applyStep f i s t).delivery.pending k
        = mapLookup t.delivery.pending k ∧
    mapLookup (applyStep f i s t).signature.pending k
        = mapLookup t.signature.pending k ∧
    mapLookup (applyStep f i s t).account.pending k
        = mapLookup t.account.pending k :=
  ⟨deliveryStep_lookup_ne _ _ _ _ h, signatureStep_lookup_ne _ _ _ _ _ h,
   accountStep_lookup_ne _ _ _ _ _ h⟩

theorem runFrom_lookup_lt (f : RunFlags) (steps : List StepInfo) :
    ∀ (i : Nat) (t : RunTrackers) (k : Nat), k < i →
    mapLookup (runFrom f i steps t).delivery.pending k
        = mapLookup t.delivery.pending k ∧
    mapLookup (runFrom f i steps t).signature.pending k
        = mapLookup t.signature.pending k ∧
    mapLookup (runFrom f i steps t).account.pending k
        = mapLookup t.account.pending k := by
  induction steps with
  | nil => intro i t k _; exact ⟨rfl, rfl, rfl⟩
  | cons s rest ih =>
      intro i t k hk
      have hne : i ≠ k := by omega
      have h1 := applyStep_lookup_ne f i s t k hne
      have h2 := ih (i + 1) (applyStep f i s t) k (by omega)
      exact ⟨h2.1.trans h1.1, h2.2.1.trans h1.2.1, h2.2.2.trans h1.2.2⟩

theorem runFrom_lookup (f : RunFlags) (steps : List StepInfo) :
    ∀ (i : Nat) (t : RunTrackers) (j : Nat) (hj : j < steps.length),
    (∀ k, i ≤ k →
      mapLookup t.delivery.pending k = none ∧
      mapLookup t.signature.pending k = none ∧
      mapLookup t.account.pending k = none) →
    mapLookup (runFrom f i steps t).delivery.pending (i + j)
        = (if (steps.get ⟨j, hj⟩).deliveryResolved then none
           else some ⟨0, none⟩) ∧
    mapLookup (runFrom f i steps t).signature.pending (i + j)
        = (if (steps.get ⟨j, hj⟩).hasSig && f.subSigs then
            (if (steps.get ⟨j, hj⟩).sigConfirmed then none
             else some ⟨0, if f.totalSync then some (i + j) else none⟩)
           else none) ∧
    mapLookup (runFrom f i steps t).account.pending (i + j)
        = (if (steps.get ⟨j, hj⟩).hasSig && f.subAccts then
            (if (steps.get ⟨j, hj⟩).acctConfirmed then none
             else if f.totalSync then none
             else some ⟨0, none⟩)
           else none) := by
  induction steps with
  | nil =>
      intro i t j hj _
      exact absurd hj (Nat.not_lt_zero j)
  | cons s rest ih =>
      intro i t j hj hclean
      cases j with
      | zero =>
          have hlt := runFrom_lookup_lt f rest (i + 1) (applyStep f i s t) i
            (Nat.lt_succ_self i)
          have hold := hclean i (le_refl i)
          refine ⟨?_, ?_, ?_⟩
          · rw [Nat.add_zero]
            show mapLookup (runFrom f (i + 1) rest
              (applyStep f i s t)).delivery.pending i = _
            rw [hlt.1]
            have hstep := deliveryStep_lookup_self t.delivery i s
            simpa [applyStep] using hstep
          · rw [Nat.add_zero]
            show mapLookup (runFrom f (i + 1) rest
              (applyStep f i s t)).signature.pending i = _
            rw [hlt.2.1]
            have hstep := signatureStep_lookup_self f t.signature i s
            rw [hold.2.1] at hstep
            simpa [applyStep] using hstep
          · rw [Nat.add_zero]
            show mapLookup (runFrom f (i + 1) rest
              (applyStep f i s t)).account.pending i = _
            rw [hlt.2.2]
            have hstep := accountStep_lookup_self f t.account i s
            rw [hold.2.2] at hstep
            simpa [applyStep] using hstep
      | succ j' =>
          have hj' : j' < rest.length := by
            simpa [Nat.succ_lt_succ_iff] using hj
          have hclean' : ∀ k, i + 1 ≤ k →
              mapLookup (applyStep f i s t).delivery.pending k = none ∧
              mapLookup (applyStep f i s t).signature.pending k = none ∧
              mapLookup (applyStep f i s t).account.pending k = none := by
            intro k hk
            have hne : i ≠ k := by omega
            have hfr := applyStep_lookup_ne f i s t k hne
            have hcl := hclean k (by omega)
            exact ⟨hfr.1.trans hcl.1, hfr.2.1.trans hcl.2.1,
              hfr.2.2.trans hcl.2.2⟩
          have := ih (i + 1) (applyStep f i s t) j' hj' hclean'
          have harith : i + (j' + 1) = (i + 1) + j' := by omega
          rw [harith]
          simpa using this

/-- C1 counterexample: a run of one iteration with signature
subscriptions and `enforce-total-sync`, whose signature confirmation
never arrives: the completion task's timeout branch discards the result
without touching the tracker, so after the run completes the signature
tracker's pending map still contains the id — refuting "after the run
completes, every pending map is empty". -/
theorem c1_signature_entry_leaks :
    (runTrackers ⟨true, false, true⟩
        [⟨true, true, false, false⟩]).signature.pending ≠ [] := by
  decide

/-- C1 amended: after a run, a delivery entry is pending iff its HTTP
response never resolved; a signature entry is pending iff it was tracked
and its confirmation never arrived (the 3-second timeout path does NOT
remove signature entries); an account entry is pending iff it was
tracked, never confirmed, and `enforce-total-sync` was off (only the
total-sync completion task calls `remove` on timeout).  The pending maps
are therefore not necessarily empty post-run. -/
theorem c1_pending_after_run (f : RunFlags) (steps : List StepInfo)
    (j : Nat) (hj : j < steps.length) :
    mapLookup (runTrackers f steps).delivery.pending j
        = (if (steps.get ⟨j, hj⟩).deliveryResolved then none
           else some ⟨0, none⟩) ∧
    mapLookup (runTrackers f steps).signature.pending j
        = (if (steps.get ⟨j, hj⟩).hasSig && f.subSigs then
            (if (steps.get ⟨j, hj⟩).sigConfirmed then none
             else some ⟨0, if f.totalSync then some j else none⟩)
           else none) ∧
    mapLookup (runTrackers f steps).account.pending j
        = (if (steps.get ⟨j, hj⟩).hasSig && f.subAccts then
            (if (steps.get ⟨j, hj⟩).acctConfirmed then none
             else if f.totalSync then none
             else some ⟨0, none⟩)
           else none) := by
  have h := runFrom_lookup f steps 0 ⟨Confirmations.empty, Confirmations.empty,
    Confirmations.empty⟩ j hj (fun k _ => ⟨rfl, rfl, rfl⟩)
  simpa [runTrackers] using h

/-- C1 witness: the characterization at a concrete two-iteration run in
which the first signature confirmation never arrives. -/
theorem c1_pending_after_run_witness :
    (0 : Nat) < ([⟨true, true, false, false⟩, ⟨true, true, true, true⟩]
        : List StepInfo).length ∧
    (mapLookup (runTrackers ⟨true, false, true⟩
          [⟨true, true, false, false⟩, ⟨true, true, true, true⟩]).delivery.pending 0
        = none ∧
      mapLookup (runTrackers ⟨true, false, true⟩
          [⟨true, true, false, false⟩, ⟨true, true, true, true⟩]).signature.pending 0
        = some ⟨0, some 0⟩ ∧
      mapLookup (runTrackers ⟨true, false, true⟩
          [⟨true, true, false, false⟩, ⟨true, true, true, true⟩]).account.pending 0
        = none) := by
  refine ⟨by decide, ?_⟩
  have h := c1_pending_after_run ⟨true, false, true⟩
    [⟨true, true, false, false⟩, ⟨true, true, true, true⟩] 0 (by decide)
  simpa using h

end Redline
